import Mathlib

/-!
Verification development for the liquid fill gauge shape
(src/plots/liquid/shapes/liquid.ts).

JavaScript numbers are modelled as real numbers.  Style values that may be
absent (undefined) are modelled with Option; JavaScript string truthiness
(undefined, null and the empty string are falsy) is modelled by jsTruthyStr.
Host-framework collaborators (parsePoint, getBBox, the animation scheduler)
are modelled as explicit parameters; the animation scheduler may fail, which
the code catches locally, so the per-wave animation outcome is an Except.
-/

open Real

/-- SVG-like path commands emitted by the wave path builder. -/
inductive PathCommand where
  | M (x y : ℝ)
  | C (c1x c1y c2x c2y x y : ℝ)
  | L (x y : ℝ)
  | Z

/-- The constructor kind of a path command, used to state structural facts. -/
inductive CmdKind where
  | move
  | cubic
  | line
  | close
deriving DecidableEq

/-- Kind of a path command. -/
def PathCommand.kind : PathCommand → CmdKind
  | .M _ _ => .move
  | .C _ _ _ _ _ _ => .cubic
  | .L _ _ => .line
  | .Z => .close

/-- Linear interpolation, from the source: (1 - factor) * a + factor * b. -/
def lerp (a b factor : ℝ) : ℝ := (1 - factor) * a + factor * b

/-- JavaScript truthiness of an optional string value: undefined (none) and
the empty string are falsy, every other string is truthy. -/
def jsTruthyStr : Option String → Bool
  | none => false
  | some s => s != ""

/-- Caller-supplied style overrides (cfg.style); absent fields are none. -/
structure ShapeStyle where
  fill : Option String := none
  stroke : Option String := none
  opacity : Option ℝ := none
  fillOpacity : Option ℝ := none
  strokeOpacity : Option ℝ := none
  lineWidth : Option ℝ := none

/-- The slice of the draw configuration consumed by the attribute helpers:
cfg.style, cfg.color and cfg.opacity (isNumber is modelled by isSome). -/
structure ShapeCfg where
  style : ShapeStyle := {}
  color : Option String := none
  opacity : Option ℝ := none

/-- Result of getFillAttrs: the object spread of the defaults and cfg.style.
The opacity default 1 is always overridable by the style; the remaining
style fields pass through. -/
structure FillAttrs where
  opacity : ℝ
  fill : Option String
  stroke : Option String
  fillOpacity : Option ℝ
  strokeOpacity : Option ℝ
  lineWidth : Option ℝ

/-- Embedding of getFillAttrs: attrs is the spread of opacity 1 under
cfg.style, then fill is set from cfg.color when cfg.color is truthy and
attrs.fill is falsy. -/
def getFillAttrs (cfg : ShapeCfg) : FillAttrs :=
  let attrs : FillAttrs :=
    { opacity := cfg.style.opacity.getD 1
      fill := cfg.style.fill
      stroke := cfg.style.stroke
      fillOpacity := cfg.style.fillOpacity
      strokeOpacity := cfg.style.strokeOpacity
      lineWidth := cfg.style.lineWidth }
  if jsTruthyStr cfg.color && !(jsTruthyStr attrs.fill) then
    { attrs with fill := cfg.color }
  else attrs

/-- Result of getLineAttrs: every field is the merge of the defaults with
cfg.style, then possibly overridden from cfg.color and cfg.opacity. -/
structure LineAttrs where
  fill : Option String
  fillOpacity : Option ℝ
  lineWidth : Option ℝ
  stroke : Option String
  opacity : Option ℝ
  strokeOpacity : Option ℝ

/-- Embedding of getLineAttrs: mix of the defaults (fill white, fillOpacity 0,
lineWidth 2) under cfg.style, then stroke from cfg.color when the style set
no truthy stroke, then a numeric cfg.opacity overrides both opacity and
strokeOpacity. -/
def getLineAttrs (cfg : ShapeCfg) : LineAttrs :=
  let attrs : LineAttrs :=
    { fill := cfg.style.fill <|> some "#fff"
      fillOpacity := cfg.style.fillOpacity <|> some 0
      lineWidth := cfg.style.lineWidth <|> some 2
      stroke := cfg.style.stroke
      opacity := cfg.style.opacity
      strokeOpacity := cfg.style.strokeOpacity }
  let attrs :=
    if jsTruthyStr cfg.color && !(jsTruthyStr attrs.stroke) then
      { attrs with stroke := cfg.color }
    else attrs
  if cfg.opacity.isSome then
    { attrs with opacity := cfg.opacity, strokeOpacity := cfg.opacity }
  else attrs

/-- Embedding of getWaterWavePositions: the three Bezier control and end
points of one quarter-period segment, by stage (c mod 4). -/
noncomputable def getWaterWavePositions (x : ℝ) (stage : ℕ) (waveLength amplitude : ℝ) :
    (ℝ × ℝ) × (ℝ × ℝ) × (ℝ × ℝ) :=
  if stage = 0 then
    ((x + ((1 / 2) * waveLength) / π / 2, amplitude / 2),
     (x + ((1 / 2) * waveLength) / π, amplitude),
     (x + waveLength / 4, amplitude))
  else if stage = 1 then
    ((x + ((1 / 2) * waveLength) / π / 2 * (π - 2), amplitude),
     (x + ((1 / 2) * waveLength) / π / 2 * (π - 1), amplitude / 2),
     (x + waveLength / 4, 0))
  else if stage = 2 then
    ((x + ((1 / 2) * waveLength) / π / 2, -amplitude / 2),
     (x + ((1 / 2) * waveLength) / π, -amplitude),
     (x + waveLength / 4, -amplitude))
  else
    ((x + ((1 / 2) * waveLength) / π / 2 * (π - 2), -amplitude),
     (x + ((1 / 2) * waveLength) / π / 2 * (π - 1), -amplitude / 2),
     (x + waveLength / 4, 0))

/-- First phase-normalization while loop of getWaterWavePath: while the
phase is below -2 pi, add 2 pi.  Terminates because each iteration lowers
the ceiling of -phase / (2 pi). -/
noncomputable def normLoop1 (p : ℝ) : ℝ :=
  if p < -(2 * π) then normLoop1 (p + 2 * π) else p
termination_by (⌈-p / (2 * π)⌉ - 1).toNat
decreasing_by
  rename_i h
  have hpi : (0 : ℝ) < 2 * π := by linarith [Real.pi_pos]
  have e : -(p + 2 * π) / (2 * π) = -p / (2 * π) - 1 := by
    field_simp
    ring
  have hc : 1 < ⌈-p / (2 * π)⌉ := by
    refine Int.lt_ceil.mpr ?_
    push_cast
    rw [lt_div_iff₀ hpi]
    linarith
  rw [e, Int.ceil_sub_one]
  omega

/-- Second phase-normalization while loop of getWaterWavePath: while the
phase is above 0, subtract 2 pi. -/
noncomputable def normLoop2 (p : ℝ) : ℝ :=
  if 0 < p then normLoop2 (p - 2 * π) else p
termination_by (⌈p / (2 * π)⌉).toNat
decreasing_by
  rename_i h
  have hpi : (0 : ℝ) < 2 * π := by linarith [Real.pi_pos]
  have e : (p - 2 * π) / (2 * π) = p / (2 * π) - 1 := by
    field_simp
  have hc : 0 < ⌈p / (2 * π)⌉ := Int.ceil_pos.mpr (div_pos h hpi)
  rw [e, Int.ceil_sub_one]
  omega

/-- The two while loops of getWaterWavePath run in sequence on the input
phase. -/
noncomputable def normalizePhase (phase : ℝ) : ℝ := normLoop2 (normLoop1 phase)

/-- The loop variable waveRight of getWaterWavePath: 0 before the loop, and
set to the x coordinate of the third returned point when the loop body runs
with c equal to curves - 1, so this is its value after the loop. -/
noncomputable def waveRightOf (radius waveLength amplitude : ℝ) : ℝ :=
  let curves := (⌈2 * radius / waveLength * 4⌉ * 2).toNat
  if curves = 0 then 0
  else
    (getWaterWavePositions (((curves - 1 : ℕ) : ℝ) * waveLength / 4) ((curves - 1) % 4)
      waveLength amplitude).2.2.1

/-- Embedding of getWaterWavePath: curves quarter-segments starting from the
top-left corner, closed by two lines down to below the circle. -/
noncomputable def getWaterWavePath (radius waterLevel waveLength phase amplitude cx cy : ℝ) :
    List PathCommand :=
  let curves := (⌈2 * radius / waveLength * 4⌉ * 2).toNat
  let offset := normalizePhase phase / π / 2 * waveLength
  let left := cx - radius + offset - radius * 2
  ([PathCommand.M left waterLevel] ++
    (List.range curves).map (fun (c : ℕ) =>
      let pos := getWaterWavePositions ((c : ℝ) * waveLength / 4) (c % 4) waveLength amplitude
      PathCommand.C (pos.1.1 + left) (-pos.1.2 + waterLevel) (pos.2.1.1 + left)
        (-pos.2.1.2 + waterLevel) (pos.2.2.1 + left) (-pos.2.2.2 + waterLevel))) ++
  [PathCommand.L (waveRightOf radius waveLength amplitude + left) (cy + radius),
   PathCommand.L left (cy + radius),
   PathCommand.Z]

/-- Bounding box of a shape, as returned by the host getBBox query. -/
structure BBox where
  minX : ℝ
  maxX : ℝ
  minY : ℝ
  maxY : ℝ

/-- A wave path shape as submitted to the clipped group by addWaterWave. -/
structure WaveShape where
  name : String
  path : List PathCommand
  fill : Option String
  opacity : ℝ

/-- A looping translation animation request submitted to the host: translate
by tx with the given duration, repeating. -/
structure AnimRequest where
  tx : ℝ
  duration : ℝ
  repeating : Bool

/-- Stagger factor of wave i among waveCount waves, from addWaterWave:
0 when waveCount is at most 1, else i / (waveCount - 1). -/
noncomputable def waveFactor (waveCount i : ℕ) : ℝ :=
  if waveCount ≤ 1 then 0 else (i : ℝ) / ((waveCount : ℝ) - 1)

/-- Amplitude of wave i, from addWaterWave: width / lerp 56 64 factor. -/
noncomputable def waveAmplitude (width : ℝ) (waveCount i : ℕ) : ℝ :=
  width / lerp 56 64 (waveFactor waveCount i)

/-- Opacity of wave i, from addWaterWave: lerp 0.6 0.3 factor times the base
opacity. -/
noncomputable def waveOpacity (baseOpacity : ℝ) (waveCount i : ℕ) : ℝ :=
  lerp 0.6 0.3 (waveFactor waveCount i) * baseOpacity

/-- Animation duration of wave i, from addWaterWave, with duration = 5000:
lerp duration (0.7 * duration) factor. -/
noncomputable def waveDuration (waveCount i : ℕ) : ℝ :=
  lerp 5000 (0.7 * 5000) (waveFactor waveCount i)

/-- The shape added for wave i in the loop body of addWaterWave, with the
bounding box width and height of the clip shape. -/
noncomputable def waveShapeAt (x y level : ℝ) (waveCount : ℕ) (waveAttrs : FillAttrs)
    (bbox : BBox) (radius : ℝ) (i : ℕ) : WaveShape :=
  let width := bbox.maxX - bbox.minX
  let height := bbox.maxY - bbox.minY
  { name := "wave-path-" ++ toString i
    path := getWaterWavePath radius (bbox.minY + height * level) (width / 4) 0
      (waveAmplitude width waveCount i) x y
    fill := waveAttrs.fill
    opacity := waveOpacity waveAttrs.opacity waveCount i }

/-- Outcome of requesting the looping animation for wave i: the host may
fail (no attached rendering surface), modelled by the failure oracle
animFails; on failure the code logs the diagnostic below. -/
noncomputable def waveAnimAt (animFails : ℕ → Bool) (width : ℝ) (waveCount i : ℕ) :
    Except String AnimRequest :=
  if animFails i then Except.error "off-screen group animate error!"
  else Except.ok { tx := width / 2, duration := waveDuration waveCount i, repeating := true }

/-- Embedding of addWaterWave: for each wave index the shape is added to the
group, then the animation request is attempted inside try/catch; the catch
swallows the failure (keeping the diagnostic) and the loop continues, so
every branch of the loop body returns ok. -/
noncomputable def addWaterWave (x y level : ℝ) (waveCount : ℕ) (waveAttrs : FillAttrs)
    (bbox : BBox) (radius : ℝ) (animFails : ℕ → Bool) :
    Except String (List WaveShape × List (Except String AnimRequest)) :=
  (List.range waveCount).foldlM
    (fun acc i =>
      let wave := waveShapeAt x y level waveCount waveAttrs bbox radius i
      match waveAnimAt animFails (bbox.maxX - bbox.minX) waveCount i with
      | Except.error e => Except.ok (acc.1 ++ [wave], acc.2 ++ [Except.error e])
      | Except.ok a => Except.ok (acc.1 ++ [wave], acc.2 ++ [Except.ok a]))
    ([], [])

/-- The circle attributes used for the clip shape and the outer ring. -/
structure CircleAttrs where
  x : ℝ
  y : ℝ
  r : ℝ

/-- Host rendering framework collaborators used by draw: the coordinate
mapping parsePoint (JavaScript numbers include Infinity, hence WithTop for
the x coordinate fed from the reduce over the points), and the bounding box
query answered for the clip circle. -/
structure Host where
  parsePoint : WithTop ℝ → ℝ → ℝ × ℝ
  getBBox : CircleAttrs → BBox

/-- The slice of the draw configuration consumed by draw: the style slice,
the data points and customInfo.radius (none models a non-number). -/
structure DrawCfg where
  shape : ShapeCfg := {}
  points : List (ℝ × ℝ) := []
  customRadius : Option ℝ := none

/-- The reduce over cfg.points computing the minimal x, starting from
Infinity. -/
noncomputable def drawMinX (cfg : DrawCfg) : WithTop ℝ :=
  cfg.points.foldl (fun r p => min r ((p.1 : WithTop ℝ))) ⊤

/-- The gauge center: the canonical point (0.5, 0.5) mapped by the host. -/
noncomputable def drawCenter (host : Host) : ℝ × ℝ :=
  host.parsePoint ((0.5 : ℝ) : WithTop ℝ) 0.5

/-- The leftmost data extent mapped by the host, at y = cy = 0.5. -/
noncomputable def drawMinXPoint (cfg : DrawCfg) (host : Host) : ℝ × ℝ :=
  host.parsePoint (drawMinX cfg) 0.5

/-- The gauge radius from draw: min of the half width and minXPoint.y times
the radius ratio (0.9 when customInfo.radius is not a number). -/
noncomputable def drawRadius (cfg : DrawCfg) (host : Host) : ℝ :=
  min ((drawCenter host).1 - (drawMinXPoint cfg host).1)
    ((drawMinXPoint cfg host).2 * (cfg.customRadius.getD 0.9))

/-- The circular clip set on the waves group by draw. -/
noncomputable def drawClip (cfg : DrawCfg) (host : Host) : CircleAttrs :=
  { x := (drawCenter host).1, y := (drawCenter host).2, r := drawRadius cfg host }

/-- Width of the bounding box the host reports for the clip circle. -/
noncomputable def drawWidth (cfg : DrawCfg) (host : Host) : ℝ :=
  (host.getBBox (drawClip cfg host)).maxX - (host.getBBox (drawClip cfg host)).minX

/-- The outer ring circle shape: the line attrs mixed with the circle
geometry and a transparent fill. -/
structure RingShape where
  attrs : LineAttrs
  x : ℝ
  y : ℝ
  r : ℝ

/-- The ring circle added to the container by draw. -/
noncomputable def drawRing (cfg : DrawCfg) (host : Host) : RingShape :=
  { attrs := { getLineAttrs cfg.shape with fill := some "transparent" }
    x := (drawCenter host).1
    y := (drawCenter host).2
    r := drawRadius cfg host }

/-- What draw leaves in the container: the wave shapes inside the clipped
waves group, the per-wave animation outcomes, and the ring circles added to
the container itself. -/
structure DrawResult where
  waves : List WaveShape
  anims : List (Except String AnimRequest)
  rings : List RingShape

/-- Embedding of the registered draw callback: computes the geometry, the
fill attrs, the clip, calls addWaterWave with level 1 - points.1.y (the host
contract supplies at least two points), waveCount 3 and radius times 4, and
finally adds the ring circle. -/
noncomputable def draw (cfg : DrawCfg) (host : Host) (animFails : ℕ → Bool) :
    Except String DrawResult :=
  (addWaterWave (drawCenter host).1 (drawCenter host).2
      (1 - (cfg.points.getD 1 (0, 0)).2) 3 (getFillAttrs cfg.shape)
      (host.getBBox (drawClip cfg host)) (drawRadius cfg host * 4) animFails).map
    (fun w => { waves := w.1, anims := w.2, rings := [drawRing cfg host] })

/-- A concrete host used in witnesses: bounding boxes are the unit square. -/
noncomputable def sampleHost : Host :=
  { parsePoint := fun _ _ => (0, 0), getBBox := fun _ => ⟨0, 1, 0, 1⟩ }

/-- A concrete draw configuration used in witnesses. -/
def sampleCfg : DrawCfg := {}

theorem normLoop1_id {p : ℝ} (h : ¬ p < -(2 * π)) : normLoop1 p = p := by
  rw [normLoop1]
  exact if_neg h

theorem normLoop1_step {p : ℝ} (h : p < -(2 * π)) : normLoop1 p = normLoop1 (p + 2 * π) := by
  rw [normLoop1]
  exact if_pos h

theorem normLoop2_id {p : ℝ} (h : ¬ 0 < p) : normLoop2 p = p := by
  rw [normLoop2]
  exact if_neg h

theorem normLoop2_step {p : ℝ} (h : 0 < p) : normLoop2 p = normLoop2 (p - 2 * π) := by
  rw [normLoop2]
  exact if_pos h

theorem normLoop1_ge (p : ℝ) : -(2 * π) ≤ normLoop1 p := by
  rw [normLoop1]
  split
  · exact normLoop1_ge (p + 2 * π)
  · linarith [not_lt.mp (by assumption : ¬ p < -(2 * π))]
termination_by (⌈-p / (2 * π)⌉ - 1).toNat
decreasing_by
  rename_i h
  have hpi : (0 : ℝ) < 2 * π := by linarith [Real.pi_pos]
  have e : -(p + 2 * π) / (2 * π) = -p / (2 * π) - 1 := by
    field_simp
    ring
  have hc : 1 < ⌈-p / (2 * π)⌉ := by
    refine Int.lt_ceil.mpr ?_
    push_cast
    rw [lt_div_iff₀ hpi]
    linarith
  rw [e, Int.ceil_sub_one]
  omega

theorem normLoop2_nonpos (p : ℝ) : normLoop2 p ≤ 0 := by
  rw [normLoop2]
  split
  · exact normLoop2_nonpos (p - 2 * π)
  · linarith [not_lt.mp (by assumption : ¬ 0 < p)]
termination_by (⌈p / (2 * π)⌉).toNat
decreasing_by
  rename_i h
  have hpi : (0 : ℝ) < 2 * π := by linarith [Real.pi_pos]
  have e : (p - 2 * π) / (2 * π) = p / (2 * π) - 1 := by
    field_simp
  have hc : 0 < ⌈p / (2 * π)⌉ := Int.ceil_pos.mpr (div_pos h hpi)
  rw [e, Int.ceil_sub_one]
  omega

theorem normLoop2_ge (p : ℝ) (hp : -(2 * π) ≤ p) : -(2 * π) ≤ normLoop2 p := by
  rw [normLoop2]
  split
  · refine normLoop2_ge (p - 2 * π) ?_
    have h : 0 < p := by assumption
    linarith
  · exact hp
termination_by (⌈p / (2 * π)⌉).toNat
decreasing_by
  rename_i h
  have hpi : (0 : ℝ) < 2 * π := by linarith [Real.pi_pos]
  have e : (p - 2 * π) / (2 * π) = p / (2 * π) - 1 := by
    field_simp
  have hc : 0 < ⌈p / (2 * π)⌉ := Int.ceil_pos.mpr (div_pos h hpi)
  rw [e, Int.ceil_sub_one]
  omega

theorem normalizePhase_zero : normalizePhase 0 = 0 := by
  have hpi := Real.pi_pos
  unfold normalizePhase
  rw [normLoop1_id (by push_neg; linarith), normLoop2_id (by simp)]

theorem normalizePhase_neg_two_pi : normalizePhase (0 - 2 * π) = -(2 * π) := by
  have hpi := Real.pi_pos
  have e : (0 : ℝ) - 2 * π = -(2 * π) := by ring
  rw [e]
  unfold normalizePhase
  rw [normLoop1_id (by push_neg; exact le_refl _), normLoop2_id (by push_neg; linarith)]

theorem normalizePhase_shift (p : ℝ) (hp : p ≠ 0) :
    normalizePhase p = normalizePhase (p - 2 * π) := by
  have hpi := Real.pi_pos
  unfold normalizePhase
  rcases lt_or_gt_of_ne hp with h | h
  · have hstep : p - 2 * π < -(2 * π) := by linarith
    rw [normLoop1_step hstep]
    have e : p - 2 * π + 2 * π = p := by ring
    rw [e]
  · have h1 : normLoop1 p = p := normLoop1_id (by push_neg; linarith)
    have h2 : normLoop1 (p - 2 * π) = p - 2 * π := normLoop1_id (by push_neg; linarith)
    rw [h1, h2, normLoop2_step h]

/-- C10: the two phase-normalization while loops of getWaterWavePath
terminate on every real phase (normLoop1 and normLoop2 are total functions
defined by well-founded recursion on the number of remaining iterations),
and the normalized phase they produce always lies in the closed interval
from -2 pi to 0. -/
theorem normalizePhase_range (p : ℝ) :
    -(2 * π) ≤ normalizePhase p ∧ normalizePhase p ≤ 0 :=
  ⟨normLoop2_ge _ (normLoop1_ge p), normLoop2_nonpos _⟩

theorem map_kind_range_cubic (f : ℕ → PathCommand)
    (h : ∀ c, (f c).kind = CmdKind.cubic) (n : ℕ) :
    (List.range n).map (PathCommand.kind ∘ f) = List.replicate n CmdKind.cubic := by
  induction n with
  | zero => simp
  | succ m ih =>
    rw [List.range_succ, List.map_append, ih, List.replicate_succ']
    simp [h]

/-- C1: for positive radius and wave length and nonnegative amplitude, the
wave path starts with a MoveTo, ends with a ClosePath, and contains exactly
ceil((2 * radius / waveLength) * 4) * 2 CubicBezierTo commands in between,
followed only by the two closing LineTo commands before the ClosePath (the
second conjunct records that the loop bound is nonnegative, so the ℕ-valued
count equals the ceiling expression). -/
theorem getWaterWavePath_structure (radius waterLevel waveLength phase amplitude cx cy : ℝ)
    (hr : 0 < radius) (hw : 0 < waveLength) (ha : 0 ≤ amplitude) :
    (getWaterWavePath radius waterLevel waveLength phase amplitude cx cy).map PathCommand.kind =
      CmdKind.move ::
        (List.replicate (⌈2 * radius / waveLength * 4⌉ * 2).toNat CmdKind.cubic ++
          [CmdKind.line, CmdKind.line, CmdKind.close]) ∧
    (((⌈2 * radius / waveLength * 4⌉ * 2).toNat : ℤ) = ⌈2 * radius / waveLength * 4⌉ * 2) := by
  constructor
  · simp only [getWaterWavePath]
    simp only [List.map_append, List.map_map, List.map_cons, List.map_nil, List.cons_append,
      List.nil_append, PathCommand.kind]
    refine congrArg₂ List.cons rfl (congrArg₂ (· ++ ·) ?_ rfl)
    apply map_kind_range_cubic
    intro c
    rfl
  · have hc : 0 < ⌈2 * radius / waveLength * 4⌉ := Int.ceil_pos.mpr (by positivity)
    omega

/-- Witness for C1 at radius 1, waveLength 1, amplitude 0. -/
theorem getWaterWavePath_structure_witness :
    (getWaterWavePath 1 0 1 0 0 0 0).map PathCommand.kind =
      CmdKind.move ::
        (List.replicate (⌈2 * (1 : ℝ) / 1 * 4⌉ * 2).toNat CmdKind.cubic ++
          [CmdKind.line, CmdKind.line, CmdKind.close]) ∧
    (((⌈2 * (1 : ℝ) / 1 * 4⌉ * 2).toNat : ℤ) = ⌈2 * (1 : ℝ) / 1 * 4⌉ * 2) :=
  getWaterWavePath_structure 1 0 1 0 0 0 0 (by norm_num) (by norm_num) (by norm_num)

/-- Counterexample for C2: at phase 0 the normalized phase is 0, while at
phase 0 - 2 pi it is -2 pi (the loops use strict comparisons, so both
endpoints of the closed interval are reachable), which shifts the whole
path left by one waveLength; the two paths differ already in their MoveTo. -/
theorem getWaterWavePath_phase_periodicity_cex :
    getWaterWavePath 1 0 1 0 0 0 0 ≠ getWaterWavePath 1 0 1 (0 - 2 * π) 0 0 0 := by
  intro h
  have hh := congrArg (fun l => l.head?) h
  simp only [getWaterWavePath, normalizePhase_zero, normalizePhase_neg_two_pi,
    List.cons_append, List.head?_cons, Option.some.injEq, PathCommand.M.injEq] at hh
  have hpi := Real.pi_pos
  have hne : π ≠ 0 := ne_of_gt hpi
  rcases hh with ⟨h1, -⟩
  rw [div_div, mul_one, zero_div, div_div, neg_div, mul_div_assoc] at h1
  rw [div_mul_eq_div_div, div_self hne] at h1
  norm_num at h1

/-- C2 amended: for every nonzero phase p the paths at p and p - 2 pi are
identical (the normalization is exactly mod 2 pi away from the boundary);
p = 0 is the unique exception, since normalization lands in the closed
interval from -2 pi to 0 and sends 0 to 0 but -2 pi to -2 pi. -/
theorem getWaterWavePath_phase_periodicity (radius waterLevel waveLength amplitude cx cy p : ℝ)
    (hp : p ≠ 0) :
    getWaterWavePath radius waterLevel waveLength p amplitude cx cy =
      getWaterWavePath radius waterLevel waveLength (p - 2 * π) amplitude cx cy := by
  unfold getWaterWavePath
  rw [normalizePhase_shift p hp]

/-- Witness for the amended C2 at phase 1. -/
theorem getWaterWavePath_phase_periodicity_witness :
    getWaterWavePath 1 0 1 1 0 0 0 = getWaterWavePath 1 0 1 (1 - 2 * π) 0 0 0 :=
  getWaterWavePath_phase_periodicity 1 0 1 0 0 0 1 (by norm_num)

theorem getWaterWavePositions_third_x (x : ℝ) (stage : ℕ) (waveLength amplitude : ℝ) :
    (getWaterWavePositions x stage waveLength amplitude).2.2.1 = x + waveLength / 4 := by
  unfold getWaterWavePositions
  split_ifs <;> rfl

/-- C3: each quarter-segment ends at horizontal offset x + waveLength / 4,
and the y coordinates of the three points follow the stage pattern of the
source (stage 0 ascends amplitude / 2, amplitude, amplitude; stage 1
descends amplitude, amplitude / 2, 0; stage 2 descends -amplitude / 2,
-amplitude, -amplitude; stage 3 ascends -amplitude, -amplitude / 2, 0);
amplitude 0 makes the segment flat at every stage. -/
theorem getWaterWavePositions_spec (x waveLength amplitude : ℝ)
    (hw : 0 < waveLength) (ha : 0 ≤ amplitude) :
    (∀ stage : ℕ,
      (getWaterWavePositions x stage waveLength amplitude).2.2.1 = x + waveLength / 4) ∧
    ((getWaterWavePositions x 0 waveLength amplitude).1.2 = amplitude / 2 ∧
      (getWaterWavePositions x 0 waveLength amplitude).2.1.2 = amplitude ∧
      (getWaterWavePositions x 0 waveLength amplitude).2.2.2 = amplitude) ∧
    ((getWaterWavePositions x 1 waveLength amplitude).1.2 = amplitude ∧
      (getWaterWavePositions x 1 waveLength amplitude).2.1.2 = amplitude / 2 ∧
      (getWaterWavePositions x 1 waveLength amplitude).2.2.2 = 0) ∧
    ((getWaterWavePositions x 2 waveLength amplitude).1.2 = -(amplitude / 2) ∧
      (getWaterWavePositions x 2 waveLength amplitude).2.1.2 = -amplitude ∧
      (getWaterWavePositions x 2 waveLength amplitude).2.2.2 = -amplitude) ∧
    ((getWaterWavePositions x 3 waveLength amplitude).1.2 = -amplitude ∧
      (getWaterWavePositions x 3 waveLength amplitude).2.1.2 = -(amplitude / 2) ∧
      (getWaterWavePositions x 3 waveLength amplitude).2.2.2 = 0) ∧
    (amplitude = 0 → ∀ stage : ℕ,
      (getWaterWavePositions x stage waveLength amplitude).1.2 = 0 ∧
      (getWaterWavePositions x stage waveLength amplitude).2.1.2 = 0 ∧
      (getWaterWavePositions x stage waveLength amplitude).2.2.2 = 0) := by
  refine ⟨fun stage => getWaterWavePositions_third_x x stage waveLength amplitude,
    ?_, ?_, ?_, ?_, ?_⟩
  · norm_num [getWaterWavePositions]
  · norm_num [getWaterWavePositions]
  · norm_num [getWaterWavePositions, neg_div]
  · norm_num [getWaterWavePositions, neg_div]
  · intro h0 stage
    subst h0
    unfold getWaterWavePositions
    split_ifs <;> norm_num

/-- Witness for C3 at x = 0, waveLength = 1, amplitude = 1. -/
theorem getWaterWavePositions_spec_witness :
    (getWaterWavePositions 0 0 1 1).2.2.1 = 0 + 1 / 4 ∧
    (getWaterWavePositions 0 1 1 1).1.2 = 1 :=
  ⟨(getWaterWavePositions_spec 0 1 1 (by norm_num) (by norm_num)).1 0,
   (getWaterWavePositions_spec 0 1 1 (by norm_num) (by norm_num)).2.2.1.1⟩

/-- C4: the horizontal extent of the emitted wave relative to the left edge
of the path equals curveCount * waveLength / 4, this is at least 4 * radius
(the quarter-segments cover at least twice the diameter), and curveCount is
always even. -/
theorem waveRightOf_coverage (radius waveLength amplitude : ℝ)
    (hr : 0 < radius) (hw : 0 < waveLength) :
    waveRightOf radius waveLength amplitude =
      ((⌈2 * radius / waveLength * 4⌉ * 2 : ℤ) : ℝ) * waveLength / 4 ∧
    4 * radius ≤ waveRightOf radius waveLength amplitude ∧
    Even (⌈2 * radius / waveLength * 4⌉ * 2) := by
  have hcpos : 0 < ⌈2 * radius / waveLength * 4⌉ := Int.ceil_pos.mpr (by positivity)
  have hceil : 2 * radius / waveLength * 4 ≤ (⌈2 * radius / waveLength * 4⌉ : ℝ) :=
    Int.le_ceil _
  have hnn : (0 : ℤ) ≤ ⌈2 * radius / waveLength * 4⌉ * 2 := by omega
  have hcast : (((⌈2 * radius / waveLength * 4⌉ * 2).toNat : ℕ) : ℝ) =
      ((⌈2 * radius / waveLength * 4⌉ * 2 : ℤ) : ℝ) := by
    exact_mod_cast Int.toNat_of_nonneg hnn
  have heq : waveRightOf radius waveLength amplitude =
      ((⌈2 * radius / waveLength * 4⌉ * 2 : ℤ) : ℝ) * waveLength / 4 := by
    unfold waveRightOf
    have hne : ¬ (⌈2 * radius / waveLength * 4⌉ * 2).toNat = 0 := by omega
    simp only [hne, if_false, getWaterWavePositions_third_x]
    have hone : 1 ≤ (⌈2 * radius / waveLength * 4⌉ * 2).toNat := by omega
    rw [Nat.cast_sub hone, hcast]
    push_cast
    ring
  refine ⟨heq, ?_, ⟨⌈2 * radius / waveLength * 4⌉, by ring⟩⟩
  rw [heq]
  have hceil2 : 8 * radius / waveLength ≤ (⌈2 * radius / waveLength * 4⌉ : ℝ) := by
    have h1 : 8 * radius / waveLength = 2 * radius / waveLength * 4 := by ring
    rw [h1]
    exact hceil
  have h8 : 8 * radius ≤ (⌈2 * radius / waveLength * 4⌉ : ℝ) * waveLength := by
    calc 8 * radius = 8 * radius / waveLength * waveLength := by field_simp
    _ ≤ (⌈2 * radius / waveLength * 4⌉ : ℝ) * waveLength :=
        mul_le_mul_of_nonneg_right hceil2 (le_of_lt hw)
  push_cast
  linarith

/-- Witness for C4 at radius 1, waveLength 1 (amplitude 0). -/
theorem waveRightOf_coverage_witness :
    4 * (1 : ℝ) ≤ waveRightOf 1 1 0 :=
  (waveRightOf_coverage 1 1 0 (by norm_num) (by norm_num)).2.1

theorem foldlM_ok_of_pure {α β γ : Type} (F : β → α → Except γ β) (g : β → α → β)
    (hF : ∀ acc i, F acc i = Except.ok (g acc i)) :
    ∀ (l : List α) (b : β), l.foldlM F b = Except.ok (l.foldl g b) := by
  intro l
  induction l with
  | nil => intro b; rfl
  | cons a t ih =>
    intro b
    rw [List.foldlM_cons, hF, List.foldl_cons]
    exact ih (g b a)

theorem foldl_append_pair {α β γ : Type} (s : α → β) (t : α → γ) :
    ∀ (l : List α) (acc : List β × List γ),
      l.foldl (fun a i => (a.1 ++ [s i], a.2 ++ [t i])) acc =
        (acc.1 ++ l.map s, acc.2 ++ l.map t) := by
  intro l
  induction l with
  | nil => intro acc; simp
  | cons a u ih =>
    intro acc
    rw [List.foldl_cons, ih]
    simp

theorem addWaterWave_eq (x y level : ℝ) (waveCount : ℕ) (waveAttrs : FillAttrs)
    (bbox : BBox) (radius : ℝ) (animFails : ℕ → Bool) :
    addWaterWave x y level waveCount waveAttrs bbox radius animFails =
      Except.ok
        ((List.range waveCount).map (waveShapeAt x y level waveCount waveAttrs bbox radius),
         (List.range waveCount).map
           (waveAnimAt animFails (bbox.maxX - bbox.minX) waveCount)) := by
  unfold addWaterWave
  rw [foldlM_ok_of_pure _
    (fun acc i =>
      (acc.1 ++ [waveShapeAt x y level waveCount waveAttrs bbox radius i],
       acc.2 ++ [waveAnimAt animFails (bbox.maxX - bbox.minX) waveCount i]))
    ?_]
  · rw [foldl_append_pair]
    simp
  · intro acc i
    cases h : waveAnimAt animFails (bbox.maxX - bbox.minX) waveCount i <;> simp [h]

theorem getD_map_range {β : Type} (f : ℕ → β) (n i : ℕ) (h : i < n) (d : β) :
    ((List.range n).map f).getD i d = f i := by
  rw [List.getD_eq_getElem?_getD, List.getElem?_map, List.getElem?_range h]
  rfl

/-- C8: the per-wave parameters are deterministic functions of the wave
index: the i-th shape uses the path built with amplitude width / lerp 56 64
factor and opacity lerp 0.6 0.3 factor times the base opacity, the animation
uses duration lerp 5000 3500 factor, factor is i / (waveCount - 1) and 0
when waveCount is at most 1; with a single wave the divisor is 56, the
opacity factor 0.6 and the duration 5000. -/
theorem addWaterWave_per_wave_params (x y level : ℝ) (waveCount : ℕ) (waveAttrs : FillAttrs)
    (bbox : BBox) (radius : ℝ) (animFails : ℕ → Bool) (i : ℕ) (hi : i < waveCount) :
    ∃ shapes anims,
      addWaterWave x y level waveCount waveAttrs bbox radius animFails =
        Except.ok (shapes, anims) ∧
      shapes.getD i ⟨"", [], none, 0⟩ =
        { name := "wave-path-" ++ toString i
          path := getWaterWavePath radius (bbox.minY + (bbox.maxY - bbox.minY) * level)
            ((bbox.maxX - bbox.minX) / 4) 0
            (waveAmplitude (bbox.maxX - bbox.minX) waveCount i) x y
          fill := waveAttrs.fill
          opacity := waveOpacity waveAttrs.opacity waveCount i } ∧
      (animFails i = false →
        anims.getD i (Except.error "") =
          Except.ok { tx := (bbox.maxX - bbox.minX) / 2,
                      duration := waveDuration waveCount i, repeating := true }) ∧
      waveFactor waveCount i =
        (if waveCount ≤ 1 then 0 else (i : ℝ) / ((waveCount : ℝ) - 1)) ∧
      waveDuration waveCount i = lerp 5000 3500 (waveFactor waveCount i) ∧
      (waveFactor 1 0 = 0 ∧
        waveAmplitude (bbox.maxX - bbox.minX) 1 0 = (bbox.maxX - bbox.minX) / 56 ∧
        waveOpacity waveAttrs.opacity 1 0 = 0.6 * waveAttrs.opacity ∧
        waveDuration 1 0 = 5000) := by
  refine ⟨_, _, addWaterWave_eq x y level waveCount waveAttrs bbox radius animFails,
    ?_, ?_, ?_, ?_, ?_, ?_, ?_, ?_⟩
  · rw [getD_map_range _ _ _ hi]
    rfl
  · intro hf
    rw [getD_map_range _ _ _ hi]
    simp [waveAnimAt, hf]
  · rfl
  · unfold waveDuration
    norm_num
  · norm_num [waveFactor]
  · norm_num [waveAmplitude, waveFactor, lerp]
  · norm_num [waveOpacity, waveFactor, lerp]
  · norm_num [waveDuration, waveFactor, lerp]

/-- Witness for C8: the single-wave parameters at concrete inputs, obtained
by instantiating the main theorem at wave 0 of 3 with a unit bounding box. -/
theorem addWaterWave_per_wave_params_witness :
    waveFactor 1 0 = 0 ∧ waveAmplitude ((1 : ℝ) - 0) 1 0 = ((1 : ℝ) - 0) / 56 ∧
    waveOpacity (1 : ℝ) 1 0 = 0.6 * (1 : ℝ) ∧ waveDuration 1 0 = 5000 := by
  obtain ⟨-, -, -, -, -, -, -, hs⟩ :=
    addWaterWave_per_wave_params 0 0 0 3 ⟨1, none, none, none, none, none⟩ ⟨0, 1, 0, 1⟩ 1
      (fun _ => false) 0 (by norm_num)
  exact hs

/-- C9: a failure to start the looping animation for any wave is caught
inside addWaterWave and never propagated: for every failure oracle the call
returns ok, the added wave shapes are exactly those of the failure-free run
(all waveCount of them), and draw itself also returns ok with the same wave
and ring shapes. -/
theorem addWaterWave_failure_isolated :
    (∀ (x y level : ℝ) (waveCount : ℕ) (waveAttrs : FillAttrs) (bbox : BBox) (radius : ℝ)
        (animFails : ℕ → Bool),
      ∃ shapes anims anims0,
        addWaterWave x y level waveCount waveAttrs bbox radius animFails =
          Except.ok (shapes, anims) ∧
        addWaterWave x y level waveCount waveAttrs bbox radius (fun _ => false) =
          Except.ok (shapes, anims0) ∧
        shapes.length = waveCount) ∧
    (∀ (cfg : DrawCfg) (host : Host) (animFails : ℕ → Bool),
      ∃ r r0, draw cfg host animFails = Except.ok r ∧
        draw cfg host (fun _ => false) = Except.ok r0 ∧
        r.waves = r0.waves ∧ r.rings = r0.rings) := by
  constructor
  · intro x y level waveCount waveAttrs bbox radius animFails
    refine ⟨_, _, _, addWaterWave_eq x y level waveCount waveAttrs bbox radius animFails,
      addWaterWave_eq x y level waveCount waveAttrs bbox radius (fun _ => false), by simp⟩
  · intro cfg host animFails
    unfold draw
    rw [addWaterWave_eq, addWaterWave_eq]
    exact ⟨_, _, rfl, rfl, rfl, rfl⟩

/-- C5: draw adds exactly 3 wave path shapes to the clipped group plus one
ring circle to the container, and for positive bounding width and positive
base opacity both the wave opacities and the wave amplitudes strictly
decrease as the wave index increases. -/
theorem draw_counts_and_stagger (cfg : DrawCfg) (host : Host) (animFails : ℕ → Bool)
    (hwidth : 0 < drawWidth cfg host)
    (hop : 0 < (getFillAttrs cfg.shape).opacity) :
    ∃ r : DrawResult, draw cfg host animFails = Except.ok r ∧
      r.waves.length = 3 ∧ r.rings.length = 1 ∧
      ∀ i j : ℕ, i < j → j < 3 →
        (r.waves.getD j ⟨"", [], none, 0⟩).opacity <
          (r.waves.getD i ⟨"", [], none, 0⟩).opacity ∧
        waveAmplitude (drawWidth cfg host) 3 j < waveAmplitude (drawWidth cfg host) 3 i := by
  unfold draw
  rw [addWaterWave_eq]
  refine ⟨_, rfl, by simp, rfl, ?_⟩
  intro i j hij hj3
  have hi3 : i < 3 := lt_trans hij hj3
  rw [getD_map_range _ _ _ hj3, getD_map_range _ _ _ hi3]
  constructor
  · show waveOpacity (getFillAttrs cfg.shape).opacity 3 j <
      waveOpacity (getFillAttrs cfg.shape).opacity 3 i
    interval_cases j <;> interval_cases i <;>
      · norm_num [waveOpacity, waveFactor, lerp]
        nlinarith [hop]
  · interval_cases j <;> interval_cases i <;>
      · norm_num [waveAmplitude, waveFactor, lerp]
        gcongr <;> norm_num

/-- Witness for C5 at the sample configuration and host (unit bounding box,
base opacity 1). -/
theorem draw_counts_and_stagger_witness :
    ∃ r : DrawResult, draw sampleCfg sampleHost (fun _ => false) = Except.ok r ∧
      r.waves.length = 3 ∧ r.rings.length = 1 ∧
      ∀ i j : ℕ, i < j → j < 3 →
        (r.waves.getD j ⟨"", [], none, 0⟩).opacity <
          (r.waves.getD i ⟨"", [], none, 0⟩).opacity ∧
        waveAmplitude (drawWidth sampleCfg sampleHost) 3 j <
          waveAmplitude (drawWidth sampleCfg sampleHost) 3 i :=
  draw_counts_and_stagger sampleCfg sampleHost (fun _ => false)
    (by norm_num [drawWidth, sampleHost])
    (by norm_num [getFillAttrs, sampleCfg, jsTruthyStr])

/-- Counterexample for C6: a style that explicitly sets fill to the empty
string (a falsy value in JavaScript) is not preserved; the truthiness test
!attrs.fill lets the supplied color overwrite it. -/
theorem getFillAttrs_explicit_fill_cex :
    (getFillAttrs { style := { fill := some "" }, color := some "#ff0000" }).fill =
      some "#ff0000" ∧ some "#ff0000" ≠ (some "" : Option String) := by
  constructor
  · rfl
  · decide

/-- C6 amended: getFillAttrs starts from opacity 1 merged under the style,
and assigns the color to fill only when the fill set by the style is falsy
(absent or the empty string); a truthy explicit fill is preserved, and a
falsy color is never assigned. -/
theorem getFillAttrs_spec (style : ShapeStyle) (c : Option String) (o : Option ℝ) :
    (getFillAttrs { style := style, color := c, opacity := o }).opacity =
      style.opacity.getD 1 ∧
    (jsTruthyStr style.fill = true →
      (getFillAttrs { style := style, color := c, opacity := o }).fill = style.fill) ∧
    (jsTruthyStr style.fill = false → jsTruthyStr c = true →
      (getFillAttrs { style := style, color := c, opacity := o }).fill = c) ∧
    (jsTruthyStr c = false →
      (getFillAttrs { style := style, color := c, opacity := o }).fill = style.fill) := by
  refine ⟨?_, ?_, ?_, ?_⟩
  · simp [getFillAttrs, apply_ite FillAttrs.opacity]
  · intro h
    simp [getFillAttrs, h]
  · intro h hc
    simp [getFillAttrs, h, hc]
  · intro hc
    simp [getFillAttrs, hc]

/-- Witness for the amended C6: empty style with color gives opacity 1 and
the color as fill. -/
theorem getFillAttrs_spec_witness :
    (getFillAttrs { style := {}, color := some "#ff0000", opacity := none }).opacity = 1 ∧
    (getFillAttrs { style := {}, color := some "#ff0000", opacity := none }).fill =
      some "#ff0000" :=
  ⟨(getFillAttrs_spec {} (some "#ff0000") none).1,
   (getFillAttrs_spec {} (some "#ff0000") none).2.2.1 (by decide) (by decide)⟩

/-- C7: getLineAttrs on the empty style with color ff0000 and numeric
opacity 0.5 returns exactly the expected attributes, and a supplied numeric
opacity is always assigned uniformly to both opacity and strokeOpacity. -/
theorem getLineAttrs_spec :
    getLineAttrs { style := {}, color := some "#ff0000", opacity := some 0.5 } =
      { fill := some "#fff", fillOpacity := some 0, lineWidth := some 2,
        stroke := some "#ff0000", opacity := some 0.5, strokeOpacity := some 0.5 } ∧
    ∀ (cfg : ShapeCfg) (o : ℝ), cfg.opacity = some o →
      (getLineAttrs cfg).opacity = some o ∧ (getLineAttrs cfg).strokeOpacity = some o := by
  constructor
  · rfl
  · intro cfg o h
    simp [getLineAttrs, h]

/-- Witness for C7: numeric opacity 1 is assigned to both fields. -/
theorem getLineAttrs_spec_witness :
    (getLineAttrs { style := {}, color := none, opacity := some 1 }).opacity = some 1 ∧
    (getLineAttrs { style := {}, color := none, opacity := some 1 }).strokeOpacity = some 1 :=
  getLineAttrs_spec.2 { style := {}, color := none, opacity := some 1 } 1 rfl
